import Mathlib

/-!
Verification of the humanJoin.js module (v0.1.1, the full source with
configurable defaults), shallowly embedded in Lean 4.

JavaScript values that can flow through the module are modelled by the
inductive type `JSVal`.  The module never uses floating-point arithmetic on
its inputs (numbers are only ever coerced to their decimal string form), so
numbers are modelled as integers.  Property access on `null`/`undefined` is
the single throwing operation the code can hit (a `TypeError`); the embedding
returns `Except Unit String` from `humanJoin` and checks the two nullish
receivers (`humanJoin.optionDefaults` and the sanitised `options` object)
up front, which is extensionally the behaviour of the source: every other
operation in the function is total.
-/

namespace HumanJoin

/-- A JavaScript value as used by the humanJoin module: strings, (integer)
numbers, booleans, `null`, `undefined`, arrays, `Arguments` pseudo-arrays and
plain objects (modelled as association lists of string keys). -/
inductive JSVal where
  | vStr : String → JSVal
  | vNum : Int → JSVal
  | vBool : Bool → JSVal
  | vNull : JSVal
  | vUndefined : JSVal
  | vArr : List JSVal → JSVal
  | vArgs : List JSVal → JSVal
  | vObj : List (String × JSVal) → JSVal

/-- The JavaScript `typeof` operator restricted to `JSVal` (note
`typeof null === 'object'`). -/
def jsTypeof : JSVal → String
  | .vStr _ => "string"
  | .vNum _ => "number"
  | .vBool _ => "boolean"
  | .vNull => "object"
  | .vUndefined => "undefined"
  | .vArr _ => "object"
  | .vArgs _ => "object"
  | .vObj _ => "object"

/-- JavaScript truthiness of a `JSVal` (`NaN` does not arise in the model). -/
def truthy : JSVal → Bool
  | .vStr s => s ≠ ""
  | .vNum n => n ≠ 0
  | .vBool b => b
  | .vNull => false
  | .vUndefined => false
  | .vArr _ => true
  | .vArgs _ => true
  | .vObj _ => true

mutual
/-- JavaScript string coercion `String(v)` / `'' + v` on `JSVal`: strings pass
through, numbers print in decimal, arrays join their elements with `,`
(with `null`/`undefined` elements becoming empty), `Arguments` objects and
plain objects use the default `Object.prototype.toString` tags. -/
def jsToString : JSVal → String
  | .vStr s => s
  | .vNum n => toString n
  | .vBool b => if b then "true" else "false"
  | .vNull => "null"
  | .vUndefined => "undefined"
  | .vArr xs => arrToString xs
  | .vArgs _ => "[object Arguments]"
  | .vObj _ => "[object Object]"

/-- `Array.prototype.toString` = `join(',')` on the element list. -/
def arrToString : List JSVal → String
  | [] => ""
  | [x] => arrElemToString x
  | x :: y :: rest => arrElemToString x ++ "," ++ arrToString (y :: rest)

/-- How `Array.prototype.join` renders one element: `null` and `undefined`
become the empty string, everything else is string-coerced. -/
def arrElemToString : JSVal → String
  | .vNull => ""
  | .vUndefined => ""
  | .vStr s => s
  | .vNum n => toString n
  | .vBool b => if b then "true" else "false"
  | .vArr xs => arrToString xs
  | .vArgs _ => "[object Arguments]"
  | .vObj _ => "[object Object]"
end

/-- `true` exactly for `null` and `undefined`, the receivers on which property
access throws a `TypeError`. -/
def isNullish : JSVal → Bool
  | .vNull => true
  | .vUndefined => true
  | _ => false

/-- First-match lookup in an object's field list; `undefined` when the key is
absent. -/
def lookupField : List (String × JSVal) → String → JSVal
  | [], _ => .vUndefined
  | (k', v) :: rest, k => if k = k' then v else lookupField rest k

/-- Property read `o[k]` on a non-nullish receiver: object fields are looked
up in the association list, absent keys and all non-object receivers give
`undefined`. -/
def getField : JSVal → String → JSVal
  | .vObj fields, k => lookupField fields k
  | _, _ => .vUndefined

/-- Whether an object's field list defines a key. -/
def hasKey : List (String × JSVal) → String → Bool
  | [], _ => false
  | (k', _) :: rest, k => k = k' || hasKey rest k

/-- Property write `o[k] = v` on an object (update in place if the key exists,
append otherwise); other receivers are returned unchanged. -/
def setField (o : JSVal) (k : String) (v : JSVal) : JSVal :=
  match o with
  | .vObj fields =>
    if hasKey fields k then
      .vObj (fields.map fun p => if p.1 = k then (k, v) else p)
    else
      .vObj (fields ++ [(k, v)])
  | other => other

/-- `humanJoin.mirrorMap`: the fixed character map from the source
(`!` → `¡`, `?` → `¿`, and the four bracket pairs each way). -/
def mirrorMap (c : Char) : Option Char :=
  if c = '!' then some '¡'
  else if c = '?' then some '¿'
  else if c = '(' then some ')'
  else if c = ')' then some '('
  else if c = '{' then some '}'
  else if c = '}' then some '{'
  else if c = '[' then some ']'
  else if c = ']' then some '['
  else if c = '<' then some '>'
  else if c = '>' then some '<'
  else none

/-- `humanJoin.mirrorCharacter`: non-strings/non-numbers give `""`; the empty
string gives `""` (a number never does, since `(n).length` is `undefined` and
`undefined < 1` is `false` in JavaScript); longer strings are truncated to
their first character; the result is the mapped character when `mirrorMap`
defines one and the character itself otherwise. -/
def mirrorCharacter : JSVal → String
  | .vStr s =>
    if s.length < 1 then ""
    else
      let c := s.data.headD ' '
      match mirrorMap c with
      | some m => String.singleton m
      | none => String.singleton c
  | .vNum n =>
    let c := (toString n).data.headD ' '
    match mirrorMap c with
    | some m => String.singleton m
    | none => String.singleton c
  | _ => ""

/-- `humanJoin.mirrorString`: non-strings/non-numbers give `""`; otherwise the
character order is reversed and each character is passed through
`mirrorCharacter`, accumulating with string concatenation as the source's
`forEach` loop does. -/
def mirrorString : JSVal → String
  | .vStr s =>
    s.data.reverse.foldl (fun ans c => ans ++ mirrorCharacter (.vStr (String.singleton c))) ""
  | .vNum n =>
    (toString n).data.reverse.foldl (fun ans c => ans ++ mirrorCharacter (.vStr (String.singleton c))) ""
  | _ => ""

/-- Character-level view of `mirrorCharacter` on a one-character string: the
mapped character when `mirrorMap` defines one, the character itself
otherwise. -/
def mirrorChr (c : Char) : Char := (mirrorMap c).getD c

/-- `Array.isArray` on a `JSVal` (in the source, a non-array `list` — which
includes every `Arguments` object — takes the stringify-and-return
short-circuit). -/
def isJSArray : JSVal → Bool
  | .vArr _ => true
  | _ => false

/-- The record `humanJoin.resetOptionDefaults()` stores into
`humanJoin.optionDefaults`: the baseline defaults. -/
def resetOptionDefaults : JSVal :=
  .vObj [("separator", .vStr ", "), ("conjunction", .vStr " & "),
         ("quoteWith", .vBool false), ("mirrorQuote", .vBool true)]

/-- The value `humanJoin.optionDefaults` is initialised to at module load
(the empty object; every lookup falls back to the hard-coded defaults). -/
def optionDefaultsInitial : JSVal := .vObj []

/-- The options-sanitising step of `humanJoin`: a string becomes
`{ <name>: true }`, any value whose `typeof` is not `'object'` becomes `{}`,
and everything else (including `null`!) passes through. -/
def sanitizeOptions : JSVal → JSVal
  | .vStr name => .vObj [(name, .vBool true)]
  | o => if jsTypeof o = "object" then o else .vObj []

/-- The strict comparison `v === false` on a `JSVal`. -/
def isFalseVal : JSVal → Bool
  | .vBool false => true
  | _ => false

/-- The output-assembly loop of `humanJoin`: `ans` starts as the first
element; for each remaining element the conjunction is appended when it is
the last one and the conjunction is not strictly `false` (the source's
`stringList.length === 1 && conjunction !== false` test), otherwise the
separator is appended, then the element itself. -/
def assemble (sep : String) (conj : JSVal) : String → List String → String
  | ans, [] => ans
  | ans, [x] => ans ++ (if isFalseVal conj then sep else jsToString conj) ++ x
  | ans, x :: y :: rest => assemble sep conj (ans ++ sep ++ x) (y :: rest)

/-- The per-call configuration of `humanJoin` after the "set up
configuration" and "apply any shortcuts" blocks: the final separator string,
the conjunction value (a string, or a boolean left uncoerced), the quote
value (a string, or a boolean left uncoerced) and the mirror-quote flag. -/
structure Config where
  separator : String
  conjunction : JSVal
  quoteWith : JSVal
  mirrorQuote : Bool

/-- The "set up configuration" and "apply any shortcuts" blocks of
`humanJoin`, line for line: each field first takes the module default when
that has an acceptable `typeof`, then the per-call option when that has an
acceptable `typeof`, numbers are coerced to strings, truthy `noConjunction`
replaces the conjunction by `false`, and the five shortcut flags are applied
in source order, each unconditionally overwriting the conjunction when
truthy. -/
def resolveConfig (defaults opts : JSVal) : Config :=
  let dSep := getField defaults "separator"
  let sep0 := if jsTypeof dSep = "string" ∨ jsTypeof dSep = "number" then dSep else .vStr ", "
  let oSep := getField opts "separator"
  let sep1 := if jsTypeof oSep = "string" ∨ jsTypeof oSep = "number" then oSep else sep0
  let dConj := getField defaults "conjunction"
  let conj0 := if jsTypeof dConj = "string" ∨ jsTypeof dConj = "number" ∨ jsTypeof dConj = "boolean" then dConj else .vStr " & "
  let oConj := getField opts "conjunction"
  let conj1 := if jsTypeof oConj = "string" ∨ jsTypeof oConj = "number" ∨ jsTypeof oConj = "boolean" then oConj else conj0
  let conj2 := if jsTypeof conj1 = "number" then .vStr (jsToString conj1) else conj1
  let conj3 := if truthy (getField opts "noConjunction") then .vBool false else conj2
  let dQuote := getField defaults "quoteWith"
  let q0 := if jsTypeof dQuote = "string" ∨ jsTypeof dQuote = "number" ∨ jsTypeof dQuote = "boolean" then dQuote else .vBool false
  let oQuote := getField opts "quoteWith"
  let q1 := if jsTypeof oQuote = "string" ∨ jsTypeof oQuote = "number" ∨ jsTypeof oQuote = "boolean" then oQuote else q0
  let quoteWith := if jsTypeof q1 = "number" then .vStr (jsToString q1) else q1
  let dMirror := getField defaults "mirrorQuote"
  let m0 := if jsTypeof dMirror = "boolean" then truthy dMirror else true
  let oMirror := getField opts "mirrorQuote"
  let mirrorQuote := if jsTypeof oMirror ≠ "undefined" then truthy oMirror else m0
  let c4 := if truthy (getField opts "and") then .vStr " and " else conj3
  let c5 := if truthy (getField opts "or") then .vStr " or " else c4
  let c6 := if truthy (getField opts "oxford") ∨ truthy (getField opts "oxfordAnd") then .vStr ", and " else c5
  let conjunction := if truthy (getField opts "oxfordOr") then .vStr ", or " else c6
  ⟨jsToString sep1, conjunction, quoteWith, mirrorQuote⟩

/-- The per-item processing step of `humanJoin`: string-coerce the item, then
wrap it in the quote string and (depending on the mirror flag) either the
Mirror of the quote string or the quote string again, when quoting is
enabled (i.e. the quote value is truthy). -/
def quoteItem (quoteWith : JSVal) (mirrorQuote : Bool) (it : JSVal) : String :=
  let s := jsToString it
  if truthy quoteWith then
    if mirrorQuote then jsToString quoteWith ++ s ++ mirrorString quoteWith
    else jsToString quoteWith ++ s ++ jsToString quoteWith
  else s

/-- `humanJoin(list, options)` with the current `humanJoin.optionDefaults`
record passed explicitly (the source reads the module-level record fresh on
every call; the embedding passes it as the first argument).  Returns
`Except.error ()` exactly when the source would throw a `TypeError`, i.e.
when configuration lookup is reached with a nullish defaults record or a
nullish sanitised options value. -/
def humanJoin (defaults : JSVal) (list : JSVal) (options : JSVal) : Except Unit String :=
  match list with
  | .vArr items =>
    if items.isEmpty then .ok ""
    else
      let opts := sanitizeOptions options
      if isNullish defaults ∨ isNullish opts then .error ()
      else
        let cfg := resolveConfig defaults opts
        let stringList := items.map (quoteItem cfg.quoteWith cfg.mirrorQuote)
        match stringList with
        | [] => .ok ""
        | first :: rest => .ok (assemble cfg.separator cfg.conjunction first rest)
  | other => .ok (jsToString other)

/-- Joining a list of strings with a single separator, the way
`Array.prototype.join(sep)` renders an already-stringified list; used only to
state properties about `humanJoin`. -/
def joinSep (sep : String) : List String → String
  | [] => ""
  | [x] => x
  | x :: y :: rest => x ++ sep ++ joinSep sep (y :: rest)

/-! ### Helper lemmas about the assembly loop -/

lemma joinSep_shift (sep a y : String) (ys : List String) :
    joinSep sep ((a ++ sep ++ y) :: ys) = a ++ sep ++ joinSep sep (y :: ys) := by
  cases ys with
  | nil => simp [joinSep]
  | cons z zs => simp [joinSep, String.append_assoc]

lemma assemble_append_last (sep : String) (conj : JSVal)
    (hconj : isFalseVal conj = false) (l : List String) :
    ∀ (a last : String),
      assemble sep conj a (l ++ [last]) =
        joinSep sep (a :: l) ++ jsToString conj ++ last := by
  induction l with
  | nil => intro a last; simp [assemble, hconj, joinSep]
  | cons y ys ih =>
    intro a last
    rcases ys with _ | ⟨z, zs⟩
    · simp [assemble, hconj, joinSep, String.append_assoc]
    · have step :
          assemble sep conj a ((y :: z :: zs) ++ [last]) =
            assemble sep conj (a ++ sep ++ y) ((z :: zs) ++ [last]) := rfl
      rw [step, ih, joinSep_shift]
      have : joinSep sep (a :: y :: z :: zs) = a ++ sep ++ joinSep sep (y :: z :: zs) := rfl
      rw [this]

lemma assemble_conj_false (sep : String) (l : List String) :
    ∀ (a : String), assemble sep (.vBool false) a l = joinSep sep (a :: l) := by
  induction l with
  | nil => intro a; simp [assemble, joinSep]
  | cons y ys ih =>
    intro a
    rcases ys with _ | ⟨z, zs⟩
    · simp [assemble, isFalseVal, joinSep]
    · have step :
          assemble sep (.vBool false) a (y :: z :: zs) =
            assemble sep (.vBool false) (a ++ sep ++ y) (z :: zs) := rfl
      rw [step, ih, joinSep_shift]
      rfl

/-- Evaluating `humanJoin` on a non-empty array with non-throwing
configuration lookups: the result is the assembly of the quoted item
strings under the resolved configuration. -/
lemma humanJoin_cons (defaults options : JSVal) (x0 : JSVal) (rest : List JSVal)
    (hd : isNullish defaults = false) (ho : isNullish (sanitizeOptions options) = false) :
    humanJoin defaults (.vArr (x0 :: rest)) options =
      .ok (assemble (resolveConfig defaults (sanitizeOptions options)).separator
            (resolveConfig defaults (sanitizeOptions options)).conjunction
            (quoteItem (resolveConfig defaults (sanitizeOptions options)).quoteWith
              (resolveConfig defaults (sanitizeOptions options)).mirrorQuote x0)
            (rest.map (quoteItem (resolveConfig defaults (sanitizeOptions options)).quoteWith
              (resolveConfig defaults (sanitizeOptions options)).mirrorQuote))) := by
  simp [humanJoin, hd, ho]

/-- When the quote value is strictly `false` (quoting disabled), per-item
processing is plain string coercion. -/
lemma quoteItem_quote_false (m : Bool) : quoteItem (.vBool false) m = jsToString :=
  funext fun _ => rfl

/-- Evaluating `humanJoin` on a non-empty array once the resolved
configuration is known. -/
lemma humanJoin_cons_cfg (defaults options x0 : JSVal) (rest : List JSVal)
    (hd : isNullish defaults = false) (ho : isNullish (sanitizeOptions options) = false)
    (sep : String) (conj qw : JSVal) (m : Bool)
    (hcfg : resolveConfig defaults (sanitizeOptions options) = ⟨sep, conj, qw, m⟩) :
    humanJoin defaults (.vArr (x0 :: rest)) options =
      .ok (assemble sep conj (quoteItem qw m x0) (rest.map (quoteItem qw m))) := by
  simp [humanJoin, hd, ho, hcfg]

/-- Shape of a `humanJoin` result when quoting is disabled and the resolved
conjunction is not the `false` sentinel: separator-joined initial items, then
the conjunction's string form, then the last item. -/
lemma humanJoin_no_quote (defaults options x0 x : JSVal) (xs' : List JSVal)
    (sep : String) (conj : JSVal) (m : Bool)
    (hd : isNullish defaults = false) (ho : isNullish (sanitizeOptions options) = false)
    (hcfg : resolveConfig defaults (sanitizeOptions options) = ⟨sep, conj, .vBool false, m⟩)
    (hconj : isFalseVal conj = false) :
    humanJoin defaults (.vArr (x0 :: (xs' ++ [x]))) options =
      .ok (joinSep sep ((x0 :: xs').map jsToString) ++ jsToString conj ++ jsToString x) := by
  rw [humanJoin_cons_cfg defaults options x0 (xs' ++ [x]) hd ho sep conj (.vBool false) m hcfg,
    quoteItem_quote_false, List.map_append]
  simp only [List.map_cons, List.map_nil]
  rw [assemble_append_last sep conj hconj (xs'.map jsToString)]

/-- Shape of a `humanJoin` result when quoting is disabled and the resolved
conjunction is the `false` sentinel: every gap uses the separator. -/
lemma humanJoin_no_quote_conj_false (defaults options x0 : JSVal) (rest : List JSVal)
    (sep : String) (m : Bool)
    (hd : isNullish defaults = false) (ho : isNullish (sanitizeOptions options) = false)
    (hcfg : resolveConfig defaults (sanitizeOptions options) = ⟨sep, .vBool false, .vBool false, m⟩) :
    humanJoin defaults (.vArr (x0 :: rest)) options =
      .ok (joinSep sep ((x0 :: rest).map jsToString)) := by
  rw [humanJoin_cons_cfg defaults options x0 rest hd ho sep (.vBool false) (.vBool false) m hcfg,
    quoteItem_quote_false, assemble_conj_false, List.map_cons]

/-! ### Helper lemmas about mirroring -/

lemma mirrorCharacter_singleton (c : Char) :
    mirrorCharacter (.vStr (String.singleton c)) = String.singleton (mirrorChr c) := by
  show mirrorCharacter (.vStr ⟨[c]⟩) = _
  cases h : mirrorMap c <;>
    simp [mirrorCharacter, mirrorChr, String.length, h]

lemma mirrorString_foldl_data (l : List Char) :
    ∀ acc : String,
      (l.foldl (fun ans c => ans ++ mirrorCharacter (.vStr (String.singleton c))) acc).data
        = acc.data ++ l.map mirrorChr := by
  induction l with
  | nil => intro acc; simp
  | cons c cs ih =>
    intro acc
    have hsing : (String.singleton (mirrorChr c)).data = [mirrorChr c] := rfl
    rw [List.foldl_cons, ih (acc ++ mirrorCharacter (.vStr (String.singleton c))),
      mirrorCharacter_singleton, String.data_append, hsing]
    simp

lemma mirrorString_data (s : String) :
    (mirrorString (.vStr s)).data = s.data.reverse.map mirrorChr := by
  have h := mirrorString_foldl_data s.data.reverse ""
  simpa [mirrorString] using h

lemma mirrorChr_invol (c : Char) (h1 : c ≠ '!') (h2 : c ≠ '?') :
    mirrorChr (mirrorChr c) = c := by
  by_cases h3 : c = '('
  · subst h3; rfl
  by_cases h4 : c = ')'
  · subst h4; rfl
  by_cases h5 : c = '{'
  · subst h5; rfl
  by_cases h6 : c = '}'
  · subst h6; rfl
  by_cases h7 : c = '['
  · subst h7; rfl
  by_cases h8 : c = ']'
  · subst h8; rfl
  by_cases h9 : c = '<'
  · subst h9; rfl
  by_cases h10 : c = '>'
  · subst h10; rfl
  have hm : mirrorMap c = none := by
    simp [mirrorMap, h1, h2, h3, h4, h5, h6, h7, h8, h9, h10]
  simp [mirrorChr, hm]

/-! ### Claim theorems -/

/-- C1: for every item list of length `n ≥ 2` (written `xs ++ [x]` with `xs`
non-empty), `humanJoin` with the baseline defaults and no per-call options
returns the first `n - 1` items string-coerced and joined with `", "`,
followed by `" & "`, followed by the coerced final item. -/
theorem default_join_two_or_more (xs : List JSVal) (x : JSVal) (h : xs ≠ []) :
    humanJoin resetOptionDefaults (.vArr (xs ++ [x])) .vUndefined =
      .ok (joinSep ", " (xs.map jsToString) ++ " & " ++ jsToString x) := by
  obtain ⟨x0, xs', rfl⟩ : ∃ y ys, xs = y :: ys := by
    cases xs with
    | nil => exact absurd rfl h
    | cons a b => exact ⟨a, b, rfl⟩
  rw [List.cons_append,
    humanJoin_cons_cfg resetOptionDefaults .vUndefined x0 (xs' ++ [x]) rfl rfl
      ", " (.vStr " & ") (.vBool false) true rfl,
    quoteItem_quote_false, List.map_append]
  simp only [List.map_cons, List.map_nil]
  rw [assemble_append_last ", " (.vStr " & ") rfl (xs'.map jsToString)]
  rfl

/-- Witness for C1 at the list `['apples', 'oranges', 'pears']`. -/
theorem default_join_two_or_more_witness :
    humanJoin resetOptionDefaults
        (.vArr ([JSVal.vStr "apples", JSVal.vStr "oranges"] ++ [JSVal.vStr "pears"])) .vUndefined =
      .ok (joinSep ", " ([JSVal.vStr "apples", JSVal.vStr "oranges"].map jsToString)
            ++ " & " ++ jsToString (.vStr "pears")) :=
  default_join_two_or_more [.vStr "apples", .vStr "oranges"] (.vStr "pears")
    (List.cons_ne_nil _ _)

/-- C2 fails on the code: with only two items the gap between them is the
final gap, so the conjunction `" & "` is used there, not the separator
`", "`; `join(['a','b'], {quoteWith:'<<'})` returns `"<<a>> & <<b>>"` and not
`"<<a>>, <<b>>"`, and with `mirrorQuote:false` it returns `"<<a<< & <<b<<"`
and not `"<<a<<, <<b<<"`. -/
theorem quote_two_items_counterexample :
    (humanJoin resetOptionDefaults (.vArr [.vStr "a", .vStr "b"])
        (.vObj [("quoteWith", .vStr "<<")]) = .ok "<<a>> & <<b>>") ∧
    "<<a>> & <<b>>" ≠ "<<a>>, <<b>>" ∧
    (humanJoin resetOptionDefaults (.vArr [.vStr "a", .vStr "b"])
        (.vObj [("quoteWith", .vStr "<<"), ("mirrorQuote", .vBool false)]) =
      .ok "<<a<< & <<b<<") ∧
    "<<a<< & <<b<<" ≠ "<<a<<, <<b<<" :=
  ⟨rfl, by decide, rfl, by decide⟩

/-- C2 amended: `join(['a','b'], {quoteWith:'<<'})` returns exactly
`"<<a>> & <<b>>"` (each item wrapped between the quote string and its
Mirror, the two items joined by the default conjunction), and with
`mirrorQuote:false` it returns exactly `"<<a<< & <<b<<"` (closing quote not
mirrored). -/
theorem quote_two_items_amended :
    (humanJoin resetOptionDefaults (.vArr [.vStr "a", .vStr "b"])
        (.vObj [("quoteWith", .vStr "<<")]) = .ok "<<a>> & <<b>>") ∧
    (humanJoin resetOptionDefaults (.vArr [.vStr "a", .vStr "b"])
        (.vObj [("quoteWith", .vStr "<<"), ("mirrorQuote", .vBool false)]) =
      .ok "<<a<< & <<b<<") :=
  ⟨rfl, rfl⟩

/-- C3: shortcut flags are applied in the fixed source order
`and`/`or`/`oxford`+`oxfordAnd`/`oxfordOr` with the later assignment
winning: `{and:true, or:true}` yields conjunction `" or "`, and
`{oxfordOr:true, and:true}` yields `", or "`. -/
theorem shortcut_precedence_later_wins (xs : List JSVal) (x : JSVal) (h : xs ≠ []) :
    (humanJoin resetOptionDefaults (.vArr (xs ++ [x]))
        (.vObj [("and", .vBool true), ("or", .vBool true)]) =
      .ok (joinSep ", " (xs.map jsToString) ++ " or " ++ jsToString x)) ∧
    (humanJoin resetOptionDefaults (.vArr (xs ++ [x]))
        (.vObj [("oxfordOr", .vBool true), ("and", .vBool true)]) =
      .ok (joinSep ", " (xs.map jsToString) ++ ", or " ++ jsToString x)) := by
  obtain ⟨x0, xs', rfl⟩ : ∃ y ys, xs = y :: ys := by
    cases xs with
    | nil => exact absurd rfl h
    | cons a b => exact ⟨a, b, rfl⟩
  refine ⟨?_, ?_⟩
  · rw [List.cons_append]
    exact humanJoin_no_quote resetOptionDefaults
      (.vObj [("and", .vBool true), ("or", .vBool true)]) x0 x xs'
      ", " (.vStr " or ") true rfl rfl rfl rfl
  · rw [List.cons_append]
    exact humanJoin_no_quote resetOptionDefaults
      (.vObj [("oxfordOr", .vBool true), ("and", .vBool true)]) x0 x xs'
      ", " (.vStr ", or ") true rfl rfl rfl rfl

/-- Witness for C3 at the list `['a', 'b', 'c']`. -/
theorem shortcut_precedence_later_wins_witness :
    (humanJoin resetOptionDefaults (.vArr ([JSVal.vStr "a", JSVal.vStr "b"] ++ [JSVal.vStr "c"]))
        (.vObj [("and", .vBool true), ("or", .vBool true)]) =
      .ok (joinSep ", " ([JSVal.vStr "a", JSVal.vStr "b"].map jsToString)
            ++ " or " ++ jsToString (.vStr "c"))) ∧
    (humanJoin resetOptionDefaults (.vArr ([JSVal.vStr "a", JSVal.vStr "b"] ++ [JSVal.vStr "c"]))
        (.vObj [("oxfordOr", .vBool true), ("and", .vBool true)]) =
      .ok (joinSep ", " ([JSVal.vStr "a", JSVal.vStr "b"].map jsToString)
            ++ ", or " ++ jsToString (.vStr "c"))) :=
  shortcut_precedence_later_wins [.vStr "a", .vStr "b"] (.vStr "c") (List.cons_ne_nil _ _)

/-- C4: a per-call conjunction of boolean `false` is the explicit disabled
sentinel (the separator is used between the last two items as well), while a
numeric or string conjunction is coerced to its display-string form and used
as the conjunction. -/
theorem conjunction_sentinel_and_coercion (xs : List JSVal) (x : JSVal)
    (n : Int) (s : String) (h : xs ≠ []) :
    (humanJoin resetOptionDefaults (.vArr (xs ++ [x]))
        (.vObj [("conjunction", .vBool false)]) =
      .ok (joinSep ", " ((xs ++ [x]).map jsToString))) ∧
    (humanJoin resetOptionDefaults (.vArr (xs ++ [x]))
        (.vObj [("conjunction", .vNum n)]) =
      .ok (joinSep ", " (xs.map jsToString) ++ toString n ++ jsToString x)) ∧
    (humanJoin resetOptionDefaults (.vArr (xs ++ [x]))
        (.vObj [("conjunction", .vStr s)]) =
      .ok (joinSep ", " (xs.map jsToString) ++ s ++ jsToString x)) := by
  obtain ⟨x0, xs', rfl⟩ : ∃ y ys, xs = y :: ys := by
    cases xs with
    | nil => exact absurd rfl h
    | cons a b => exact ⟨a, b, rfl⟩
  refine ⟨?_, ?_, ?_⟩
  · rw [List.cons_append]
    exact humanJoin_no_quote_conj_false resetOptionDefaults
      (.vObj [("conjunction", .vBool false)]) x0 (xs' ++ [x]) ", " true rfl rfl rfl
  · rw [List.cons_append]
    exact humanJoin_no_quote resetOptionDefaults
      (.vObj [("conjunction", .vNum n)]) x0 x xs'
      ", " (.vStr (toString n)) true rfl rfl rfl rfl
  · rw [List.cons_append]
    exact humanJoin_no_quote resetOptionDefaults
      (.vObj [("conjunction", .vStr s)]) x0 x xs'
      ", " (.vStr s) true rfl rfl rfl rfl

/-- Witness for C4 at the list `['a', 'b', 'c']`, conjunction `7` / `" or even "`. -/
theorem conjunction_sentinel_and_coercion_witness :
    (humanJoin resetOptionDefaults (.vArr ([JSVal.vStr "a", JSVal.vStr "b"] ++ [JSVal.vStr "c"]))
        (.vObj [("conjunction", .vBool false)]) =
      .ok (joinSep ", " (([JSVal.vStr "a", JSVal.vStr "b"] ++ [JSVal.vStr "c"]).map jsToString))) ∧
    (humanJoin resetOptionDefaults (.vArr ([JSVal.vStr "a", JSVal.vStr "b"] ++ [JSVal.vStr "c"]))
        (.vObj [("conjunction", .vNum 7)]) =
      .ok (joinSep ", " ([JSVal.vStr "a", JSVal.vStr "b"].map jsToString)
            ++ toString (7 : Int) ++ jsToString (.vStr "c"))) ∧
    (humanJoin resetOptionDefaults (.vArr ([JSVal.vStr "a", JSVal.vStr "b"] ++ [JSVal.vStr "c"]))
        (.vObj [("conjunction", .vStr " or even ")]) =
      .ok (joinSep ", " ([JSVal.vStr "a", JSVal.vStr "b"].map jsToString)
            ++ " or even " ++ jsToString (.vStr "c"))) :=
  conjunction_sentinel_and_coercion [.vStr "a", .vStr "b"] (.vStr "c") 7 " or even "
    (List.cons_ne_nil _ _)

/-- C10: a per-call `{conjunction: true}` survives the `!== false` sentinel
check and is stringified by concatenation, so the literal text `"true"` is
inserted between the last two items. -/
theorem conjunction_true_inserts_literal_true (xs : List JSVal) (x : JSVal) (h : xs ≠ []) :
    humanJoin resetOptionDefaults (.vArr (xs ++ [x]))
        (.vObj [("conjunction", .vBool true)]) =
      .ok (joinSep ", " (xs.map jsToString) ++ "true" ++ jsToString x) := by
  obtain ⟨x0, xs', rfl⟩ : ∃ y ys, xs = y :: ys := by
    cases xs with
    | nil => exact absurd rfl h
    | cons a b => exact ⟨a, b, rfl⟩
  rw [List.cons_append]
  exact humanJoin_no_quote resetOptionDefaults
    (.vObj [("conjunction", .vBool true)]) x0 x xs'
    ", " (.vBool true) true rfl rfl rfl rfl

/-- Witness for C10 at the list `['a', 'b']`. -/
theorem conjunction_true_inserts_literal_true_witness :
    humanJoin resetOptionDefaults (.vArr ([JSVal.vStr "a"] ++ [JSVal.vStr "b"]))
        (.vObj [("conjunction", .vBool true)]) =
      .ok (joinSep ", " ([JSVal.vStr "a"].map jsToString) ++ "true" ++ jsToString (.vStr "b")) :=
  conjunction_true_inserts_literal_true [.vStr "a"] (.vStr "b") (List.cons_ne_nil _ _)

/-- C5 fails on the code: because `typeof null === 'object'`, a `null`
options argument survives the sanity check and the subsequent
`options.separator` read throws a `TypeError`, so `join(['a','b'], null)`
raises an error instead of returning a string. -/
theorem null_options_throws :
    humanJoin resetOptionDefaults (.vArr [.vStr "a", .vStr "b"]) .vNull = .error () := rfl

/-- C6: for every value that is not an array (including an `Arguments`
pseudo-list) and every defaults record and options argument, `humanJoin`
returns the string conversion of the value itself, bypassing all joining,
quoting, and configuration logic. -/
theorem non_array_stringified (defaults options v : JSVal) (h : isJSArray v = false) :
    humanJoin defaults v options = .ok (jsToString v) := by
  cases v <;> first | rfl | simp [isJSArray] at h

/-- Witness for C6 at an `Arguments` pseudo-list, with a `null` options
argument. -/
theorem non_array_stringified_witness :
    humanJoin resetOptionDefaults (.vArgs [.vStr "x"]) .vNull =
      .ok (jsToString (.vArgs [.vStr "x"])) :=
  non_array_stringified resetOptionDefaults .vNull (.vArgs [.vStr "x"]) rfl

/-- C7 fails on the code: `'!'` is mapped in the mirror map (to `'¡'`), but
`'¡'` is not a key of the map, so the double mirror of `"!"` is `"¡"`, not
`"!"`. -/
theorem mirror_roundtrip_counterexample :
    mirrorString (.vStr (mirrorString (.vStr "!"))) = "¡" ∧ ("¡" : String) ≠ "!" :=
  ⟨rfl, by decide⟩

/-- C7 amended: applying the Mirror twice round-trips to the original string
for every string containing neither `'!'` nor `'?'` — i.e. composed only of
characters on which the mirror map acts involutively (the eight bracket
characters) or not at all. -/
theorem mirror_roundtrip_amended (s : String)
    (h : ∀ c ∈ s.data, c ≠ '!' ∧ c ≠ '?') :
    mirrorString (.vStr (mirrorString (.vStr s))) = s := by
  apply String.ext
  rw [mirrorString_data, mirrorString_data, List.map_reverse, List.map_map]
  have hid : s.data.reverse.map (mirrorChr ∘ mirrorChr) = s.data.reverse.map id :=
    List.map_congr_left fun c hc =>
      mirrorChr_invol c (h c (List.mem_reverse.mp hc)).1 (h c (List.mem_reverse.mp hc)).2
  rw [hid, List.map_id, List.reverse_reverse]

/-- Witness for C7 (amended) at the bracket-and-letter string `"<ab("`. -/
theorem mirror_roundtrip_amended_witness :
    mirrorString (.vStr (mirrorString (.vStr "<ab("))) = "<ab(" :=
  mirror_roundtrip_amended "<ab(" (by decide)

/-- C8: `mirrorCharacter` yields the mirrored bracket for `'<'`, the
character itself for the unmapped `'f'`, the empty string for the empty
string, and `"4"` for the number `42`; any value that is neither a string
nor a number yields the empty string; a multi-character string is truncated
to its first character before lookup; and on a single character the result
is the mapped character when the mirror map defines one and the character
unchanged otherwise. -/
theorem mirrorCharacter_contract :
    mirrorCharacter (.vStr "<") = ">" ∧
    mirrorCharacter (.vStr "f") = "f" ∧
    mirrorCharacter (.vStr "") = "" ∧
    mirrorCharacter (.vNum 42) = "4" ∧
    (∀ v : JSVal, jsTypeof v ≠ "string" → jsTypeof v ≠ "number" →
      mirrorCharacter v = "") ∧
    (∀ s : String, s ≠ "" →
      mirrorCharacter (.vStr s) =
        mirrorCharacter (.vStr (String.singleton (s.data.headD ' ')))) ∧
    (∀ c : Char, mirrorCharacter (.vStr (String.singleton c)) =
      String.singleton ((mirrorMap c).getD c)) := by
  refine ⟨rfl, rfl, rfl, rfl, ?_, ?_, ?_⟩
  · intro v hs hn
    cases v <;> first | rfl | simp [jsTypeof] at hs hn
  · intro s hs
    have hd : s.data ≠ [] := fun hnil => hs (String.ext hnil)
    obtain ⟨c, cs, hcons⟩ := List.exists_cons_of_ne_nil hd
    have hlen : ¬ s.length < 1 := by
      simp [String.length, hcons]
    rw [show mirrorCharacter (.vStr s)
        = if s.length < 1 then ""
          else match mirrorMap (s.data.headD ' ') with
            | some m => String.singleton m
            | none => String.singleton (s.data.headD ' ') from rfl,
      if_neg hlen, hcons, List.headD_cons, mirrorCharacter_singleton]
    cases hm : mirrorMap c <;> simp [mirrorChr, hm]
  · exact fun c => mirrorCharacter_singleton c

/-- Witness for C8 at the non-string value `true` and the two-character
string `"<("`. -/
theorem mirrorCharacter_contract_witness :
    mirrorCharacter (.vBool true) = "" ∧
    mirrorCharacter (.vStr "<(") =
      mirrorCharacter (.vStr (String.singleton (("<(" : String).data.headD ' '))) ∧
    mirrorCharacter (.vStr (String.singleton '<')) =
      String.singleton ((mirrorMap '<').getD '<') :=
  ⟨mirrorCharacter_contract.2.2.2.2.1 (.vBool true) (by decide) (by decide),
    mirrorCharacter_contract.2.2.2.2.2.1 "<(" (by decide),
    mirrorCharacter_contract.2.2.2.2.2.2 '<'⟩

/-- C9: `humanJoin` reads the defaults record on every call, so a mutation of
the default conjunction to `" and "` takes effect on a subsequent call with
no options, and the record installed by `resetOptionDefaults` (separator
`", "`, conjunction `" & "`, quoting disabled, mirror-quote enabled)
restores the baseline `" & "` output. -/
theorem defaults_mutation_and_reset (xs : List JSVal) (x : JSVal) (h : xs ≠ []) :
    (humanJoin (setField resetOptionDefaults "conjunction" (.vStr " and "))
        (.vArr (xs ++ [x])) .vUndefined =
      .ok (joinSep ", " (xs.map jsToString) ++ " and " ++ jsToString x)) ∧
    (humanJoin resetOptionDefaults (.vArr (xs ++ [x])) .vUndefined =
      .ok (joinSep ", " (xs.map jsToString) ++ " & " ++ jsToString x)) ∧
    getField resetOptionDefaults "separator" = .vStr ", " ∧
    getField resetOptionDefaults "conjunction" = .vStr " & " ∧
    getField resetOptionDefaults "quoteWith" = .vBool false ∧
    getField resetOptionDefaults "mirrorQuote" = .vBool true := by
  obtain ⟨x0, xs', rfl⟩ : ∃ y ys, xs = y :: ys := by
    cases xs with
    | nil => exact absurd rfl h
    | cons a b => exact ⟨a, b, rfl⟩
  refine ⟨?_, ?_, rfl, rfl, rfl, rfl⟩
  · rw [List.cons_append]
    exact humanJoin_no_quote (setField resetOptionDefaults "conjunction" (.vStr " and "))
      .vUndefined x0 x xs' ", " (.vStr " and ") true rfl rfl rfl rfl
  · rw [List.cons_append]
    exact humanJoin_no_quote resetOptionDefaults .vUndefined x0 x xs'
      ", " (.vStr " & ") true rfl rfl rfl rfl

/-- Witness for C9 at the list `['a', 'b']`. -/
theorem defaults_mutation_and_reset_witness :
    (humanJoin (setField resetOptionDefaults "conjunction" (.vStr " and "))
        (.vArr ([JSVal.vStr "a"] ++ [JSVal.vStr "b"])) .vUndefined =
      .ok (joinSep ", " ([JSVal.vStr "a"].map jsToString) ++ " and " ++ jsToString (.vStr "b"))) ∧
    (humanJoin resetOptionDefaults (.vArr ([JSVal.vStr "a"] ++ [JSVal.vStr "b"])) .vUndefined =
      .ok (joinSep ", " ([JSVal.vStr "a"].map jsToString) ++ " & " ++ jsToString (.vStr "b"))) ∧
    getField resetOptionDefaults "separator" = .vStr ", " ∧
    getField resetOptionDefaults "conjunction" = .vStr " & " ∧
    getField resetOptionDefaults "quoteWith" = .vBool false ∧
    getField resetOptionDefaults "mirrorQuote" = .vBool true :=
  defaults_mutation_and_reset [.vStr "a"] (.vStr "b") (List.cons_ne_nil _ _)

end HumanJoin
